import Mathlib

/-
Verification of `real_time_denoiser.py`: a shallow embedding of the
real-time IQ denoising pipeline (sample framing, frequency-queue drain,
capture-process restart, TCP delivery with reconnect, operator frequency
input, and the L-BFGS-B based denoiser) together with theorems about the
claims of the specification.

Modelling conventions:
* Python floats in the framing / parsing paths are modelled by exact
  rationals (`ℚ`); the denoiser's numerics are modelled over `ℝ`.
* The side-effecting parts of the orchestrator loop are modelled as pure
  functions from per-iteration inputs (queued frequencies, the bytes a
  read returned, whether the send succeeded) to a list of `Effect`s, in
  the order the Python code performs them.
-/

namespace RTD

/-! ### Configuration constants (lines 10-16 of the source) -/

def SAMPLE_RATE : Nat := 250000

def CHUNK_SIZE : Nat := 4096

def DEFAULT_FREQ : Int := 102000000

def PORT : Nat := 9000

/-! ### Sample framing (lines 102-105 of the source)

`iq = np.frombuffer(raw, uint8).astype(float32); iq = (iq - 127.5)/127.5;
i = iq[::2]; q = iq[1::2]`. A raw byte is a `Nat` (< 256 for genuine
`uint8` data); the normalized value is an exact rational. -/

def normalizeByte (b : Nat) : ℚ := ((b : ℚ) - 127.5) / 127.5

/-- Elements at even indices 0, 2, 4, … of a list (Python `l[::2]`). -/
def everyOther {α : Type} : List α → List α
  | [] => []
  | [a] => [a]
  | a :: _ :: rest => a :: everyOther rest

/-- The I channel: even-indexed bytes, normalized (`iq[::2]`). -/
def frameI (raw : List Nat) : List ℚ :=
  everyOther (raw.map normalizeByte)

/-- The Q channel: odd-indexed bytes, normalized (`iq[1::2]`). -/
def frameQ (raw : List Nat) : List ℚ :=
  everyOther ((raw.map normalizeByte).drop 1)

/-! ### Observable effects of the orchestrator loop -/

/-- One observable side effect of the processing loop, in program order:
killing / reaping / spawning the capture process (`proc.kill()`,
`proc.wait()`, `start_rtl_sdr`), attempting to send a processed chunk
(`conn.sendall`, tagged with the raw bytes the chunk came from), closing
the delivery connection, re-listening for a consumer
(`start_tcp_server`), setting the terminate flag, and process exit. -/
inductive Effect : Type where
  | killProc : Effect
  | waitProc : Effect
  | startSdr : Int → Effect
  | sendChunk : List Nat → Effect
  | closeConn : Effect
  | listenAccept : Effect
  | setTerminate : Effect
  | exitProc : Effect
deriving DecidableEq

/-- The frequencies at which a capture process was (re)started, in order. -/
def startFreqs (es : List Effect) : List Int :=
  es.filterMap fun e =>
    match e with
    | Effect.startSdr f => some f
    | _ => none

/-- The raw chunks whose processed data was handed to `sendall`, in order. -/
def sentChunks (es : List Effect) : List (List Nat) :=
  es.filterMap fun e =>
    match e with
    | Effect.sendChunk r => some r
    | _ => none

def isSend : Effect → Bool
  | Effect.sendChunk _ => true
  | _ => false

def isClose : Effect → Bool
  | Effect.closeConn => true
  | _ => false

def isListen : Effect → Bool
  | Effect.listenAccept => true
  | _ => false

/-! ### Frequency-queue drain (lines 84-95 of the source)

`while not freq_queue.empty(): new_freq = freq_queue.get_nowait();
if new_freq != current_freq: current_freq = new_freq; proc.kill();
proc.wait(); proc = start_rtl_sdr(current_freq)`.  The queue's current
contents are modelled as the snapshot list `qs`, drained front to back. -/

def drainQueue (cur : Int) : List Int → Int × List Effect
  | [] => (cur, [])
  | f :: rest =>
    if f ≠ cur then
      let r := drainQueue f rest
      (r.1, Effect.killProc :: Effect.waitProc :: Effect.startSdr f :: r.2)
    else
      drainQueue cur rest

/-! ### One iteration of the processing loop (lines 83-116 of the source)

Per iteration the loop (1) drains the frequency queue, restarting the
capture process on each change, (2) reads `CHUNK_SIZE * 2` bytes and
skips the iteration when the read is short, (3) frames, denoises and
sends the chunk, and (4) on `BrokenPipeError`/`ConnectionResetError`
closes the connection and blocks in `start_tcp_server` for a new
consumer.  The loop state is only the current frequency: no bytes and no
chunks survive an iteration.  The exception handler is total: a
transport failure never escapes the loop, which the model reflects by
`loopIter` being a total function. -/

structure LoopState : Type where
  currentFreq : Int
deriving DecidableEq

structure IterInput : Type where
  /-- snapshot of the frequency queue's pending values -/
  queued : List Int
  /-- the bytes `proc.stdout.read(CHUNK_SIZE * 2)` returned -/
  raw : List Nat
  /-- whether `conn.sendall` succeeded (`false` = broken pipe / reset) -/
  sendOk : Bool
deriving DecidableEq

def loopIter (s : LoopState) (inp : IterInput) : LoopState × List Effect :=
  let d := drainQueue s.currentFreq inp.queued
  if inp.raw.length < CHUNK_SIZE * 2 then
    (⟨d.1⟩, d.2)
  else
    if inp.sendOk then
      (⟨d.1⟩, d.2 ++ [Effect.sendChunk inp.raw])
    else
      (⟨d.1⟩, d.2 ++ [Effect.sendChunk inp.raw, Effect.closeConn,
                      Effect.listenAccept])

/-- Run the processing loop over a list of per-iteration inputs,
concatenating the effects of each iteration. -/
def runLoop (s : LoopState) : List IterInput → LoopState × List Effect
  | [] => (s, [])
  | inp :: rest =>
    let r := loopIter s inp
    let r2 := runLoop r.1 rest
    (r2.1, r.2 ++ r2.2)

/-! ### Shutdown path (lines 118-129 of the source)

`except KeyboardInterrupt: terminate_flag.set(); if proc: proc.kill();
if conn: conn.close(); sys.exit(0)`. -/

def shutdownSequence (procSome connSome : Bool) : List Effect :=
  Effect.setTerminate ::
    ((if procSome then [Effect.killProc] else []) ++
     (if connSome then [Effect.closeConn] else []) ++ [Effect.exitProc])

/-- Resource view: whether a capture process is alive and whether the
delivery connection is open. -/
structure Resources : Type where
  procAlive : Bool
  connOpen : Bool
deriving DecidableEq

def applyEffect (r : Resources) : Effect → Resources
  | Effect.killProc => ⟨false, r.connOpen⟩
  | Effect.startSdr _ => ⟨true, r.connOpen⟩
  | Effect.closeConn => ⟨r.procAlive, false⟩
  | Effect.listenAccept => ⟨r.procAlive, true⟩
  | _ => r

def runEffects (r : Resources) (es : List Effect) : Resources :=
  es.foldl applyEffect r

/-- Number of capture processes alive (spawned and not yet killed),
starting from `init` live processes, after a list of effects. -/
def aliveCount (init : Int) (es : List Effect) : Int :=
  es.foldl
    (fun n e =>
      match e with
      | Effect.killProc => n - 1
      | Effect.startSdr _ => n + 1
      | _ => n)
    init

/-- The `[kill, wait, start]` effect block of one capture restart. -/
def restartBlock (f : Int) : List Effect :=
  [Effect.killProc, Effect.waitProc, Effect.startSdr f]

/-! ### Denoiser (lines 13-14, 25-47 of the source)

The objective, gradient and constants are taken directly from the
source.  Vectors are lists of reals; numpy's elementwise arithmetic
becomes `List.zipWith` / `List.map`. -/

noncomputable def LAMBDA_L1 : ℝ :=
  0.141592653589793238462643383279502884197169399375105820974944592307816406286

noncomputable def EPSILON : ℝ := 1e-3

/-- `smooth_l1(x) = sqrt(x**2 + EPSILON**2)` (line 25-26). -/
noncomputable def smooth_l1 (x : ℝ) : ℝ := Real.sqrt (x ^ 2 + EPSILON ^ 2)

/-- `cost(x) = 0.5 * sum((x - target)**2) + LAMBDA_L1 * sum(smooth_l1(x))`
(lines 28-31). -/
noncomputable def cost_function (target x : List ℝ) : ℝ :=
  0.5 * (List.zipWith (fun xi ti => (xi - ti) ^ 2) x target).sum +
    LAMBDA_L1 * (x.map smooth_l1).sum

/-- `grad(x) = (x - target) + LAMBDA_L1 * x / sqrt(x**2 + EPSILON**2)`
(lines 33-36), elementwise. -/
noncomputable def gradient (target x : List ℝ) : List ℝ :=
  List.zipWith
    (fun xi ti => (xi - ti) + LAMBDA_L1 * xi / Real.sqrt (xi ^ 2 + EPSILON ^ 2))
    x target

/-- Modelled from the spec: one update of the external solver
(`scipy.optimize.minimize`, method `L-BFGS-B`), whose code is not part
of this repository.  The spec only requires "any gradient-based
bound-free convex minimizer"; the quasi-Newton line-search update is
abstracted as a step along the negative gradient. -/
noncomputable def lbfgsStep (target x : List ℝ) : List ℝ :=
  List.zipWith (fun xi gi => xi - gi) x (gradient target x)

open Classical in
/-- Modelled from the spec: the external solver's main loop — at most
`fuel` gradient-based updates; it stops early at a first-order
stationary point (zero gradient) and otherwise returns the iterate
reached at the iteration cap, never raising on non-convergence. -/
noncomputable def lbfgsbLoop (target : List ℝ) : Nat → List ℝ → List ℝ
  | 0, x => x
  | fuel + 1, x =>
    if gradient target x = List.replicate x.length 0 then x
    else lbfgsbLoop target fuel (lbfgsStep target x)

/-- `denoise_vector` (lines 38-47): minimize from `x0 = zeros_like(data)`
with `maxiter = 30` and return the final iterate. -/
noncomputable def denoise_vector (data : List ℝ) : List ℝ :=
  lbfgsbLoop data 30 (List.replicate data.length 0)

/-! ### Operator frequency input (lines 65-75 of the source)

`user_input = input(...).strip(); if not user_input: continue;
new_freq = int(float(user_input) * 1e6); freq_queue.put(new_freq)`, any
exception being caught and reported.  `float(...)` on decimal notation
is modelled exactly over `ℚ` (sign, integer digits, optional point,
fraction digits); `int(...)` is truncation toward zero. -/

/-- Numeric value of a digit list, most significant first. -/
def digitsVal (l : List Char) : Nat :=
  l.foldl (fun a c => 10 * a + (c.toNat - 48)) 0

/-- Truncation toward zero, the behaviour of Python `int()` on a float. -/
def truncTowardZero (q : ℚ) : Int :=
  if 0 ≤ q then ⌊q⌋ else ⌈q⌉

/-- Python `str.strip()`: remove leading and trailing whitespace. -/
def stripChars (l : List Char) : List Char :=
  (((l.dropWhile Char.isWhitespace).reverse.dropWhile Char.isWhitespace).reverse)

/-- Exact-rational model of Python `float()` restricted to plain decimal
notation `[+-]digits[.digits]` with at least one digit; other inputs
(scientific notation, `inf`, `nan`, …) are outside the modelled subset
and yield `none`. -/
def parseFloat (cs : List Char) : Option ℚ :=
  let signed : ℚ × List Char :=
    match cs with
    | '-' :: r => (-1, r)
    | '+' :: r => (1, r)
    | r => (1, r)
  let intPart := signed.2.takeWhile Char.isDigit
  let rest := signed.2.dropWhile Char.isDigit
  match rest with
  | [] =>
    if intPart.isEmpty then none
    else some (signed.1 * (digitsVal intPart : ℚ))
  | '.' :: frac =>
    if frac.all Char.isDigit && !(intPart.isEmpty && frac.isEmpty) then
      some (signed.1 *
        ((digitsVal intPart : ℚ) + (digitsVal frac : ℚ) / 10 ^ frac.length))
    else none
  | _ => none

/-- Outcome of one iteration of `frequency_input_loop` on one line. -/
inductive InputOutcome : Type where
  /-- empty (or whitespace-only) line: silently skipped, nothing queued -/
  | ignored : InputOutcome
  /-- a frequency in Hz was put on the queue -/
  | queued : Int → InputOutcome
  /-- the conversion raised; "Invalid input" is printed, nothing queued -/
  | reported : InputOutcome
deriving DecidableEq

/-- One iteration of `frequency_input_loop` (lines 68-75):
`input(...).strip()`, skip if empty, else
`freq_queue.put(int(float(user_input) * 1e6))`, reporting on failure. -/
def frequency_input_step (line : String) : InputOutcome :=
  let s := stripChars line.toList
  if s = [] then InputOutcome.ignored
  else
    match parseFloat s with
    | some q => InputOutcome.queued (truncTowardZero (q * 1000000))
    | none => InputOutcome.reported

/-! ## Helper lemmas about the frequency drain -/

theorem drainQueue_fst_cons_ne (cur f : Int) (rest : List Int) (h : f ≠ cur) :
    (drainQueue cur (f :: rest)).1 = (drainQueue f rest).1 := by
  rw [drainQueue, if_pos h]

theorem drainQueue_snd_cons_ne (cur f : Int) (rest : List Int) (h : f ≠ cur) :
    (drainQueue cur (f :: rest)).2 =
      Effect.killProc :: Effect.waitProc :: Effect.startSdr f ::
        (drainQueue f rest).2 := by
  rw [drainQueue, if_pos h]

theorem drainQueue_cons_eq (cur : Int) (rest : List Int) :
    drainQueue cur (cur :: rest) = drainQueue cur rest := by
  rw [drainQueue, if_neg (by simp)]

theorem startFreqs_restart_cons (f : Int) (es : List Effect) :
    startFreqs (Effect.killProc :: Effect.waitProc :: Effect.startSdr f :: es) =
      f :: startFreqs es :=
  rfl

theorem drainQueue_final (cur : Int) (qs : List Int) :
    (drainQueue cur qs).1 = qs.getLastD cur := by
  induction qs generalizing cur with
  | nil => rfl
  | cons f rest ih =>
    by_cases h : f = cur
    · subst h
      rw [drainQueue_cons_eq, ih f, List.getLastD_cons]
    · rw [drainQueue_fst_cons_ne cur f rest h, List.getLastD_cons]
      exact ih f

theorem startFreqs_drainQueue (cur : Int) (qs : List Int) :
    List.destutter' (fun a b => a ≠ b) cur qs =
      cur :: startFreqs (drainQueue cur qs).2 := by
  induction qs generalizing cur with
  | nil => simp [drainQueue, startFreqs]
  | cons f rest ih =>
    by_cases h : f = cur
    · subst h
      rw [drainQueue_cons_eq,
        List.destutter'_cons_neg (R := fun a b => a ≠ b) (a := f) (b := f)
          rest (fun hf => hf rfl)]
      exact ih f
    · rw [drainQueue_snd_cons_ne cur f rest h,
        List.destutter'_cons_pos (R := fun a b => a ≠ b) (a := f) (b := cur)
          rest (fun hc => h hc.symm),
        startFreqs_restart_cons]
      rw [ih f]

theorem drainQueue_decomp (cur : Int) (qs : List Int) :
    (drainQueue cur qs).2 = (startFreqs (drainQueue cur qs).2).flatMap restartBlock := by
  induction qs generalizing cur with
  | nil => rfl
  | cons f rest ih =>
    by_cases h : f = cur
    · subst h
      rw [drainQueue_cons_eq]
      exact ih f
    · rw [drainQueue_snd_cons_ne cur f rest h, startFreqs_restart_cons,
        List.flatMap_cons]
      rw [← ih f]
      rfl

theorem drainQueue_no_conn_effects (cur : Int) (qs : List Int) :
    (drainQueue cur qs).2.countP isSend = 0 ∧
    (drainQueue cur qs).2.countP isClose = 0 ∧
    (drainQueue cur qs).2.countP isListen = 0 ∧
    sentChunks (drainQueue cur qs).2 = [] := by
  induction qs generalizing cur with
  | nil => simp [drainQueue, sentChunks]
  | cons f rest ih =>
    by_cases h : f = cur
    · subst h
      rw [drainQueue_cons_eq]
      exact ih f
    · obtain ⟨h1, h2, h3, h4⟩ := ih f
      rw [drainQueue_snd_cons_ne cur f rest h]
      refine ⟨?_, ?_, ?_, ?_⟩
      · simpa [List.countP_cons, isSend] using h1
      · simpa [List.countP_cons, isClose] using h2
      · simpa [List.countP_cons, isListen] using h3
      · simpa [sentChunks, List.filterMap_cons] using h4

theorem aliveCount_restartBlocks (fs : List Int) :
    ∀ n : Nat, aliveCount 1 ((fs.flatMap restartBlock).take n) ≤ 1 := by
  induction fs with
  | nil => intro n; simp [aliveCount]
  | cons f rest ih =>
    intro n
    match n with
    | 0 => simp [aliveCount]
    | 1 => simp [restartBlock, aliveCount]
    | 2 => simp [restartBlock, aliveCount]
    | (m + 3) =>
      have hm := ih m
      simp only [List.flatMap_cons, restartBlock, List.cons_append,
        List.nil_append, List.take_succ_cons, aliveCount, List.foldl_cons] at hm ⊢
      simpa using hm

/-! ## C1 and C5 -/

/-- C1 counterexample: with current frequency 102.0 MHz and queued requests
101.0, 102.5, 103.0 MHz (in Hz), the drain performs three restarts — one
per queued value — not exactly one restart at the last value; in
particular the earlier queued value 101.0 MHz does cause a restart. -/
theorem coalescing_counterexample :
    startFreqs (drainQueue 102000000 [101000000, 102500000, 103000000]).2 =
      [101000000, 102500000, 103000000] ∧
    ¬ (startFreqs (drainQueue 102000000 [101000000, 102500000, 103000000]).2).length
        = 1 := by
  decide

/-- C1 (amended): the drain applies every queued value in order, restarting
the capture process at each value that differs from the frequency current
when it is dequeued (the restart frequencies are the consecutive-duplicate-
free residue of current-frequency-then-queue), and after the drain the
current frequency equals the last queued value (or is unchanged when the
queue was empty); in particular the last restart, when any occurs, is at
the last queued value. -/
theorem drain_applies_every_change (cur : Int) (qs : List Int) :
    cur :: startFreqs (drainQueue cur qs).2 =
      List.destutter (fun a b => a ≠ b) (cur :: qs) ∧
    (drainQueue cur qs).1 = qs.getLastD cur := by
  refine ⟨?_, drainQueue_final cur qs⟩
  rw [List.destutter_cons']
  exact (startFreqs_drainQueue cur qs).symm

/-- C5: every frequency-change restart is the effect block kill-wait-start
(the old capture process is killed and reaped before the new one is
spawned), and along every prefix of the drain's effect trace at most one
capture process is alive. -/
theorem restart_kills_before_start (cur : Int) (qs : List Int) (n : Nat) :
    (drainQueue cur qs).2 = (startFreqs (drainQueue cur qs).2).flatMap restartBlock ∧
    aliveCount 1 ((drainQueue cur qs).2.take n) ≤ 1 := by
  refine ⟨drainQueue_decomp cur qs, ?_⟩
  rw [drainQueue_decomp cur qs]
  exact aliveCount_restartBlocks _ n

/-! ## Helper lemmas about the processing loop -/

theorem loopIter_short (s : LoopState) (inp : IterInput)
    (h : inp.raw.length < CHUNK_SIZE * 2) :
    loopIter s inp =
      (⟨(drainQueue s.currentFreq inp.queued).1⟩,
        (drainQueue s.currentFreq inp.queued).2) := by
  rw [loopIter, if_pos h]

theorem loopIter_full_ok (s : LoopState) (inp : IterInput)
    (h : ¬ inp.raw.length < CHUNK_SIZE * 2) (hs : inp.sendOk = true) :
    loopIter s inp =
      (⟨(drainQueue s.currentFreq inp.queued).1⟩,
        (drainQueue s.currentFreq inp.queued).2 ++ [Effect.sendChunk inp.raw]) := by
  rw [loopIter, if_neg h, hs, if_pos rfl]

theorem loopIter_full_fail (s : LoopState) (inp : IterInput)
    (h : ¬ inp.raw.length < CHUNK_SIZE * 2) (hs : inp.sendOk = false) :
    loopIter s inp =
      (⟨(drainQueue s.currentFreq inp.queued).1⟩,
        (drainQueue s.currentFreq inp.queued).2 ++
          [Effect.sendChunk inp.raw, Effect.closeConn, Effect.listenAccept]) := by
  rw [loopIter, if_neg h, hs, if_neg (by simp)]

theorem sentChunks_append (a b : List Effect) :
    sentChunks (a ++ b) = sentChunks a ++ sentChunks b :=
  List.filterMap_append a b _

theorem sentChunks_loopIter (s : LoopState) (inp : IterInput) :
    sentChunks (loopIter s inp).2 =
      if inp.raw.length < CHUNK_SIZE * 2 then [] else [inp.raw] := by
  by_cases h : inp.raw.length < CHUNK_SIZE * 2
  · rw [loopIter_short s inp h, if_pos h]
    exact (drainQueue_no_conn_effects s.currentFreq inp.queued).2.2.2
  · rw [if_neg h]
    cases hs : inp.sendOk
    · rw [loopIter_full_fail s inp h hs]
      rw [sentChunks_append,
        (drainQueue_no_conn_effects s.currentFreq inp.queued).2.2.2]
      rfl
    · rw [loopIter_full_ok s inp h hs]
      rw [sentChunks_append,
        (drainQueue_no_conn_effects s.currentFreq inp.queued).2.2.2]
      rfl

theorem sentChunks_runLoop (s : LoopState) (inps : List IterInput) :
    sentChunks (runLoop s inps).2 =
      (inps.filter fun i => !decide (i.raw.length < CHUNK_SIZE * 2)).map
        IterInput.raw := by
  induction inps generalizing s with
  | nil => rfl
  | cons i rest ih =>
    rw [runLoop]
    by_cases h : i.raw.length < CHUNK_SIZE * 2
    · simp [sentChunks_append, sentChunks_loopIter, h, List.filter_cons, ih]
    · simp [sentChunks_append, sentChunks_loopIter, h, List.filter_cons, ih]

/-! ## C2, C6 and C8 -/

/-- C2: when the read was full and the send hits a transport failure
(broken pipe / connection reset), the iteration closes the delivery
connection exactly once and performs exactly one re-listen/accept, the
close preceding the re-listen; the iteration still returns normally (the
model is a total function, mirroring the caught exception), and over any
run of the loop each fully-read chunk is handed to `sendall` exactly once
at its own iteration — a chunk whose send failed, or anything produced
while disconnected, is never retransmitted. -/
theorem send_failure_single_relisten (s : LoopState) (inp : IterInput)
    (hfail : inp.sendOk = false) (hfull : ¬ inp.raw.length < CHUNK_SIZE * 2) :
    (loopIter s inp).2.countP isClose = 1 ∧
    (loopIter s inp).2.countP isListen = 1 ∧
    (loopIter s inp).2 =
      (drainQueue s.currentFreq inp.queued).2 ++
        [Effect.sendChunk inp.raw, Effect.closeConn, Effect.listenAccept] ∧
    (∀ (s0 : LoopState) (inps : List IterInput),
      sentChunks (runLoop s0 inps).2 =
        (inps.filter fun i => !decide (i.raw.length < CHUNK_SIZE * 2)).map
          IterInput.raw) := by
  have hd := drainQueue_no_conn_effects s.currentFreq inp.queued
  have he := loopIter_full_fail s inp hfull hfail
  refine ⟨?_, ?_, ?_, ?_⟩
  · rw [he]
    simp only [List.countP_append, hd.2.1, List.countP_cons, isClose]
    rfl
  · rw [he]
    simp only [List.countP_append, hd.2.2.1, List.countP_cons, isListen]
    rfl
  · rw [he]
  · intro s0 inps
    exact sentChunks_runLoop s0 inps

/-- C2 witness: concrete failing send on a full 8192-byte chunk. -/
theorem send_failure_single_relisten_witness :
    (IterInput.mk [] (List.replicate 8192 0) false).sendOk = false ∧
    ¬ (IterInput.mk [] (List.replicate 8192 0) false).raw.length
        < CHUNK_SIZE * 2 ∧
    ((loopIter ⟨102000000⟩ (IterInput.mk [] (List.replicate 8192 0) false)).2.countP
        isClose = 1 ∧
      (loopIter ⟨102000000⟩ (IterInput.mk [] (List.replicate 8192 0) false)).2.countP
        isListen = 1 ∧
      (loopIter ⟨102000000⟩ (IterInput.mk [] (List.replicate 8192 0) false)).2 =
        (drainQueue (102000000 : Int) []).2 ++
          [Effect.sendChunk (List.replicate 8192 0), Effect.closeConn,
            Effect.listenAccept] ∧
      (∀ (s0 : LoopState) (inps : List IterInput),
        sentChunks (runLoop s0 inps).2 =
          (inps.filter fun i => !decide (i.raw.length < CHUNK_SIZE * 2)).map
            IterInput.raw)) :=
  ⟨rfl, by simp only [List.length_replicate]; decide,
    send_failure_single_relisten ⟨102000000⟩
      (IterInput.mk [] (List.replicate 8192 0) false) rfl
      (by simp only [List.length_replicate]; decide)⟩

/-- C6: an iteration whose read returned fewer than `CHUNK_SIZE * 2` bytes
performs only the frequency-drain effects — no send, no close, no
re-listen — and its resulting state is exactly the drained state,
independent of the short read's content; the iteration returns normally,
so a short read is never fatal, and no bytes are carried over (the loop
state holds no byte buffer). -/
theorem short_read_skips_processing (s : LoopState) (inp : IterInput)
    (h : inp.raw.length < CHUNK_SIZE * 2) :
    loopIter s inp =
      (⟨(drainQueue s.currentFreq inp.queued).1⟩,
        (drainQueue s.currentFreq inp.queued).2) ∧
    (loopIter s inp).2.countP isSend = 0 ∧
    (loopIter s inp).2.countP isClose = 0 ∧
    (loopIter s inp).2.countP isListen = 0 := by
  have hd := drainQueue_no_conn_effects s.currentFreq inp.queued
  have he := loopIter_short s inp h
  refine ⟨he, ?_, ?_, ?_⟩
  · rw [he]; exact hd.1
  · rw [he]; exact hd.2.1
  · rw [he]; exact hd.2.2.1

/-- C6 witness: a concrete empty (hence short) read. -/
theorem short_read_skips_processing_witness :
    (IterInput.mk [] [] true).raw.length < CHUNK_SIZE * 2 ∧
    (loopIter ⟨102000000⟩ (IterInput.mk [] [] true) =
      (⟨(drainQueue (102000000 : Int) []).1⟩, (drainQueue (102000000 : Int) []).2) ∧
    (loopIter ⟨102000000⟩ (IterInput.mk [] [] true)).2.countP isSend = 0 ∧
    (loopIter ⟨102000000⟩ (IterInput.mk [] [] true)).2.countP isClose = 0 ∧
    (loopIter ⟨102000000⟩ (IterInput.mk [] [] true)).2.countP isListen = 0) :=
  ⟨by decide,
    short_read_skips_processing ⟨102000000⟩ (IterInput.mk [] [] true) (by decide)⟩

/-- C8: the shutdown handler sets the terminate flag, kills the capture
process when one exists, closes the delivery connection when one exists,
and exits last: after the shutdown sequence no capture process is alive
and no delivery connection is open, whatever the initial resource state
was, and `exit` is the final effect. -/
theorem shutdown_releases_resources :
    ∀ p c : Bool,
      (runEffects ⟨p, c⟩ (shutdownSequence p c)).procAlive = false ∧
      (runEffects ⟨p, c⟩ (shutdownSequence p c)).connOpen = false ∧
      (shutdownSequence p c).getLast? = some Effect.exitProc ∧
      (shutdownSequence p c).head? = some Effect.setTerminate ∧
      Effect.killProc ∈ shutdownSequence true c ∧
      Effect.closeConn ∈ shutdownSequence p true := by
  decide

/-! ## Helper lemmas about framing -/

theorem everyOther_length {α : Type} :
    ∀ l : List α, (everyOther l).length = (l.length + 1) / 2
  | [] => by simp [everyOther]
  | [a] => by simp [everyOther]
  | a :: b :: rest => by
    simp only [everyOther, List.length_cons, everyOther_length rest]
    omega

theorem everyOther_getD {α : Type} (d : α) :
    ∀ (l : List α) (k : Nat), (everyOther l).getD k d = l.getD (2 * k) d
  | [], k => by simp [everyOther]
  | [a], k => by
    cases k with
    | zero => simp [everyOther]
    | succ k =>
      have h2 : 2 * (k + 1) = 2 * k + 1 + 1 := by omega
      simp [everyOther, h2, List.getD_cons_succ]
  | a :: b :: rest, k => by
    cases k with
    | zero => simp [everyOther]
    | succ k =>
      have h2 : 2 * (k + 1) = 2 * k + 1 + 1 := by omega
      show (a :: everyOther rest).getD (k + 1) d = _
      rw [List.getD_cons_succ, h2, List.getD_cons_succ, List.getD_cons_succ]
      exact everyOther_getD d rest k

theorem everyOther_subset {α : Type} :
    ∀ (l : List α) (x : α), x ∈ everyOther l → x ∈ l
  | [], x, h => by simp [everyOther] at h
  | [a], x, h => by simpa [everyOther] using h
  | a :: b :: rest, x, h => by
    simp only [everyOther, List.mem_cons] at h
    rcases h with h | h
    · simp [h]
    · have := everyOther_subset rest x h
      simp [this]

theorem getD_map_lt {α β : Type} (f : α → β) (l : List α) (n : Nat)
    (h : n < l.length) (d : α) (e : β) : (l.map f).getD n e = f (l.getD n d) := by
  rw [List.getD_eq_getElem?_getD, List.getD_eq_getElem?_getD, List.getElem?_map,
    List.getElem?_eq_getElem h]
  rfl

theorem getD_drop {α : Type} (l : List α) (i j : Nat) (d : α) :
    (l.drop i).getD j d = l.getD (i + j) d := by
  rw [List.getD_eq_getElem?_getD, List.getD_eq_getElem?_getD, List.getElem?_drop]

theorem normalizeByte_bounds (b : Nat) (hb : b ≤ 255) :
    -1 ≤ normalizeByte b ∧ normalizeByte b ≤ 1 := by
  unfold normalizeByte
  have hc : (0 : ℚ) < 127.5 := by norm_num
  have hcast : (b : ℚ) ≤ 255 := by exact_mod_cast hb
  have hnn : (0 : ℚ) ≤ (b : ℚ) := by positivity
  constructor
  · rw [le_div_iff₀ hc]
    norm_num
  · rw [div_le_one hc]
    linarith

/-! ## C3 -/

/-- C3: framing a raw chunk of length `2 * N` of bytes (each `≤ 255`)
yields an I channel from the even-indexed bytes and a Q channel from the
odd-indexed bytes, each of length `N`, each entry being
`(b - 127.5) / 127.5`, and every produced value lies in `[-1, 1]`. -/
theorem framing_correct (raw : List Nat) (N : Nat)
    (hlen : raw.length = 2 * N) (hb : ∀ b ∈ raw, b ≤ 255) :
    (frameI raw).length = N ∧ (frameQ raw).length = N ∧
    (∀ k, k < N →
      (frameI raw).getD k 0 = normalizeByte (raw.getD (2 * k) 0) ∧
      (frameQ raw).getD k 0 = normalizeByte (raw.getD (2 * k + 1) 0)) ∧
    (∀ x, x ∈ frameI raw → -1 ≤ x ∧ x ≤ 1) ∧
    (∀ x, x ∈ frameQ raw → -1 ≤ x ∧ x ≤ 1) := by
  refine ⟨?_, ?_, ?_, ?_, ?_⟩
  · rw [frameI, everyOther_length, List.length_map, hlen]
    omega
  · rw [frameQ, everyOther_length, List.length_drop, List.length_map, hlen]
    omega
  · intro k hk
    constructor
    · rw [frameI, everyOther_getD]
      exact getD_map_lt normalizeByte raw (2 * k) (by omega) 0 0
    · rw [frameQ, everyOther_getD, getD_drop]
      rw [show 1 + 2 * k = 2 * k + 1 from by omega]
      exact getD_map_lt normalizeByte raw (2 * k + 1) (by omega) 0 0
  · intro x hx
    have hx2 := everyOther_subset _ x hx
    obtain ⟨b, hbmem, rfl⟩ := List.mem_map.mp hx2
    exact normalizeByte_bounds b (hb b hbmem)
  · intro x hx
    have hx2 := List.drop_subset 1 _ (everyOther_subset _ x hx)
    obtain ⟨b, hbmem, rfl⟩ := List.mem_map.mp hx2
    exact normalizeByte_bounds b (hb b hbmem)

/-- C3 witness: the spec's end-to-end chunk `[127, 128, 0, 255]`, `N = 2`. -/
theorem framing_correct_witness :
    ([127, 128, 0, 255] : List Nat).length = 2 * 2 ∧
    (∀ b ∈ ([127, 128, 0, 255] : List Nat), b ≤ 255) ∧
    ((frameI [127, 128, 0, 255]).length = 2 ∧
      (frameQ [127, 128, 0, 255]).length = 2 ∧
      (∀ k, k < 2 →
        (frameI [127, 128, 0, 255]).getD k 0 =
          normalizeByte (([127, 128, 0, 255] : List Nat).getD (2 * k) 0) ∧
        (frameQ [127, 128, 0, 255]).getD k 0 =
          normalizeByte (([127, 128, 0, 255] : List Nat).getD (2 * k + 1) 0)) ∧
      (∀ x, x ∈ frameI [127, 128, 0, 255] → -1 ≤ x ∧ x ≤ 1) ∧
      (∀ x, x ∈ frameQ [127, 128, 0, 255] → -1 ≤ x ∧ x ≤ 1)) :=
  ⟨rfl, by decide, framing_correct [127, 128, 0, 255] 2 rfl (by decide)⟩

/-! ## Helper lemmas about the denoiser -/

theorem gradient_zero_zero (n : Nat) :
    gradient (List.replicate n (0:ℝ)) (List.replicate n 0) = List.replicate n 0 := by
  rw [gradient, List.zipWith_replicate]
  simp

theorem lbfgsbLoop_stationary (target x : List ℝ)
    (h : gradient target x = List.replicate x.length 0) :
    ∀ fuel : Nat, lbfgsbLoop target fuel x = x := by
  intro fuel
  cases fuel with
  | zero => rfl
  | succ fuel => simp [lbfgsbLoop, h]

theorem lbfgsbLoop_succ_step (target x : List ℝ) (fuel : Nat)
    (h : ¬ gradient target x = List.replicate x.length 0) :
    lbfgsbLoop target (fuel + 1) x = lbfgsbLoop target fuel (lbfgsStep target x) := by
  simp [lbfgsbLoop, h]

theorem gradient_length (target x : List ℝ) :
    (gradient target x).length = min x.length target.length := by
  rw [gradient, List.length_zipWith]

theorem lbfgsStep_length (target x : List ℝ) (h : x.length = target.length) :
    (lbfgsStep target x).length = x.length := by
  rw [lbfgsStep, List.length_zipWith, gradient_length, h]
  simp

theorem lbfgsbLoop_length (target : List ℝ) :
    ∀ (fuel : Nat) (x : List ℝ), x.length = target.length →
      (lbfgsbLoop target fuel x).length = target.length := by
  intro fuel
  induction fuel with
  | zero => intro x h; simpa [lbfgsbLoop] using h
  | succ fuel ih =>
    intro x h
    by_cases hc : gradient target x = List.replicate x.length 0
    · rw [lbfgsbLoop_stationary target x hc]
      exact h
    · rw [lbfgsbLoop_succ_step target x fuel hc]
      exact ih _ (by rw [lbfgsStep_length target x h]; exact h)

theorem lbfgsbLoop_iterate (target : List ℝ) :
    ∀ (fuel : Nat) (x : List ℝ), ∃ j, j ≤ fuel ∧
      lbfgsbLoop target fuel x = (lbfgsStep target)^[j] x := by
  intro fuel
  induction fuel with
  | zero => intro x; exact ⟨0, le_refl 0, by simp [lbfgsbLoop]⟩
  | succ fuel ih =>
    intro x
    by_cases hc : gradient target x = List.replicate x.length 0
    · exact ⟨0, Nat.zero_le _, by simp [lbfgsbLoop_stationary target x hc]⟩
    · obtain ⟨j, hj, he⟩ := ih (lbfgsStep target x)
      refine ⟨j + 1, by omega, ?_⟩
      rw [lbfgsbLoop_succ_step target x fuel hc, he,
        Function.iterate_succ_apply]

/-! ## C4, C7 and C9 -/

/-- C4: zero is a fixed point of the denoiser — on the all-zero vector of
any length the gradient vanishes at the zero initial iterate, so the
solver stops there and `denoise_vector` returns the all-zero vector of
the same length. -/
theorem denoise_zero_fixed_point (n : Nat) :
    denoise_vector (List.replicate n (0:ℝ)) = List.replicate n 0 := by
  rw [denoise_vector, List.length_replicate]
  exact lbfgsbLoop_stationary _ _ (by simpa using gradient_zero_zero n) 30

/-- C7: `denoise_vector` starts the solver at the zero vector and its
result is reached within at most 30 gradient-based update steps from that
initial iterate — bounded work on every input, the model being a total
function that returns the capped iterate instead of raising on
non-convergence. -/
theorem denoise_bounded_iterations (v : List ℝ) :
    ∃ j, j ≤ 30 ∧
      denoise_vector v = (lbfgsStep v)^[j] (List.replicate v.length 0) := by
  rw [denoise_vector]
  exact lbfgsbLoop_iterate v 30 _

/-- C9: `denoise_vector` returns a vector of the same length as its
input. -/
theorem denoise_preserves_length (v : List ℝ) :
    (denoise_vector v).length = v.length := by
  rw [denoise_vector]
  exact lbfgsbLoop_length v 30 _ (by rw [List.length_replicate])

/-! ## Helper lemmas about operator input -/

theorem frequency_input_step_eq (line : String) :
    frequency_input_step line =
      (if stripChars line.toList = [] then InputOutcome.ignored
       else
         match parseFloat (stripChars line.toList) with
         | some q => InputOutcome.queued (truncTowardZero (q * 1000000))
         | none => InputOutcome.reported) := rfl

theorem stripChars_eq_nil_iff (l : List Char) :
    stripChars l = [] ↔ l.all Char.isWhitespace = true := by
  constructor
  · intro h
    rw [stripChars, List.reverse_eq_nil_iff, List.dropWhile_eq_nil_iff] at h
    rw [List.all_eq_true]
    intro x hx
    have hsplit := List.takeWhile_append_dropWhile (p := Char.isWhitespace) (l := l)
    rw [← hsplit] at hx
    rcases List.mem_append.mp hx with hx1 | hx2
    · exact List.mem_takeWhile_imp hx1
    · exact h x (List.mem_reverse.mpr hx2)
  · intro h
    have hd : l.dropWhile Char.isWhitespace = [] :=
      List.dropWhile_eq_nil_iff.mpr (fun x hx => (List.all_eq_true.mp h) x hx)
    rw [stripChars, hd]
    rfl

theorem input_ignored_iff (line : String) :
    frequency_input_step line = InputOutcome.ignored ↔
      line.toList.all Char.isWhitespace = true := by
  rw [← stripChars_eq_nil_iff, frequency_input_step_eq]
  by_cases h : stripChars line.toList = []
  · rw [if_pos h]
    exact ⟨fun _ => h, fun _ => rfl⟩
  · rw [if_neg h]
    cases hp : parseFloat (stripChars line.toList) with
    | none => exact ⟨fun hc => InputOutcome.noConfusion hc, fun hc => absurd hc h⟩
    | some q => exact ⟨fun hc => InputOutcome.noConfusion hc, fun hc => absurd hc h⟩

theorem truncTowardZero_intCast (z : Int) : truncTowardZero ((z : ℚ)) = z := by
  rw [truncTowardZero]
  by_cases h : (0 : ℚ) ≤ (z : ℚ)
  · rw [if_pos h, Int.floor_intCast]
  · rw [if_neg h, Int.ceil_intCast]

/-! ## C10 -/

/-- C10: an empty or whitespace-only operator line is silently ignored
(enqueues nothing) — and conversely only such lines are ignored; a valid
decimal MHz value is converted to integer Hz by truncation toward zero of
its exact value times `10^6` — `0.0000015` MHz becomes 1 Hz (rounding
would give 2) and `-0.0000015` MHz becomes -1 Hz (flooring would give
-2) — and a line that fails the float conversion is reported and
enqueues nothing. -/
theorem input_line_conversion :
    (∀ line : String, frequency_input_step line = InputOutcome.ignored ↔
        line.toList.all Char.isWhitespace = true) ∧
    frequency_input_step "145.800" = InputOutcome.queued 145800000 ∧
    frequency_input_step "0.0000015" = InputOutcome.queued 1 ∧
    frequency_input_step "-0.0000015" = InputOutcome.queued (-1) ∧
    frequency_input_step "abc" = InputOutcome.reported ∧
    frequency_input_step "" = InputOutcome.ignored ∧
    frequency_input_step "   " = InputOutcome.ignored := by
  refine ⟨input_ignored_iff, ?_, ?_, ?_, ?_, rfl, rfl⟩
  · have hp : parseFloat ['1', '4', '5', '.', '8', '0', '0'] =
        some (1 * ((145 : ℚ) + 800 / 10 ^ 3)) := rfl
    rw [frequency_input_step_eq,
      show stripChars "145.800".toList = ['1', '4', '5', '.', '8', '0', '0']
        from rfl,
      if_neg (by decide), hp]
    show InputOutcome.queued
        (truncTowardZero ((1 * ((145 : ℚ) + 800 / 10 ^ 3)) * 1000000)) =
      InputOutcome.queued 145800000
    rw [show (1 * ((145 : ℚ) + 800 / 10 ^ 3)) * 1000000 = ((145800000 : Int) : ℚ)
        from by norm_num,
      truncTowardZero_intCast]
  · have hp : parseFloat ['0', '.', '0', '0', '0', '0', '0', '1', '5'] =
        some (1 * ((0 : ℚ) + 15 / 10 ^ 7)) := rfl
    have hf : ⌊(3 : ℚ) / 2⌋ = (1 : ℤ) := by
      rw [Int.floor_eq_iff]
      norm_num
    rw [frequency_input_step_eq,
      show stripChars "0.0000015".toList = ['0', '.', '0', '0', '0', '0', '0', '1', '5']
        from rfl,
      if_neg (by decide), hp]
    show InputOutcome.queued
        (truncTowardZero ((1 * ((0 : ℚ) + 15 / 10 ^ 7)) * 1000000)) =
      InputOutcome.queued 1
    rw [show (1 * ((0 : ℚ) + 15 / 10 ^ 7)) * 1000000 = (3 : ℚ) / 2 from by norm_num,
      truncTowardZero, if_pos (by norm_num), hf]
  · have hp : parseFloat ['-', '0', '.', '0', '0', '0', '0', '0', '1', '5'] =
        some (-1 * ((0 : ℚ) + 15 / 10 ^ 7)) := rfl
    have hc : ⌈-((3 : ℚ) / 2)⌉ = (-1 : ℤ) := by
      rw [Int.ceil_eq_iff]
      norm_num
    rw [frequency_input_step_eq,
      show stripChars "-0.0000015".toList =
          ['-', '0', '.', '0', '0', '0', '0', '0', '1', '5'] from rfl,
      if_neg (by decide), hp]
    show InputOutcome.queued
        (truncTowardZero ((-1 * ((0 : ℚ) + 15 / 10 ^ 7)) * 1000000)) =
      InputOutcome.queued (-1)
    rw [show (-1 * ((0 : ℚ) + 15 / 10 ^ 7)) * 1000000 = -((3 : ℚ) / 2)
        from by norm_num,
      truncTowardZero, if_neg (by norm_num), hc]
  · have hp : parseFloat ['a', 'b', 'c'] = none := rfl
    rw [frequency_input_step_eq,
      show stripChars "abc".toList = ['a', 'b', 'c'] from rfl,
      if_neg (by decide), hp]

end RTD
